import Mathlib

set_option autoImplicit false

/-!
Verification of the travel-budget Telegram bot (`bot.py`, `api_client.py`)
against its natural-language specification.

The embedding below translates the Python sources into Lean:

* Python `float` values are modelled as exact rationals (`ℚ`).  The source
  relies on `float(f"{x}") == x` (CPython's repr round-trip guarantee); the
  embedding mirrors this with an exact rational serialisation (`ratStr`) and
  a parser (`pyFloat`) that accepts both plain decimal literals and the
  serialised form, so the same round-trip identity holds exactly.
* Strings are Lean `String`s; Python's `str.split(sep, maxsplit)`,
  `str.strip()`, `str.replace`, `in` (substring test), `.lower()`, `.upper()`
  are modelled character-by-character (`pySplit`, `pyStrip`, `hasSub`,
  `lowerStr`, `upperStr`).  `str.lower()/.upper()/\d/isalpha` are modelled
  ASCII-only; the only strings they are applied to in the claims are ASCII
  needles and currency codes, for which the behaviour agrees with CPython.
* Operations of the missing `db` module (the ledger) are modelled from the
  spec; each carries a doc comment saying so.
* Python exceptions are modelled with `Except String`: a handler that can
  raise returns `.error e` where the source would raise.
-/

/-! ## Python string primitives -/

/-- whitespace in the sense of Python's `str.strip()` (the ASCII part). -/
def isPySpace (c : Char) : Bool :=
  c = ' ' || c = '\t' || c = '\n' || c = '\r' || c = Char.ofNat 11 || c = Char.ofNat 12

/-- model of Python `str.strip()` on a character list. -/
def pyStripChars (cs : List Char) : List Char :=
  ((cs.dropWhile isPySpace).reverse.dropWhile isPySpace).reverse

/-- model of Python `str.strip()`. -/
def pyStrip (s : String) : String :=
  ⟨pyStripChars s.data⟩

/-- model of Python `str.split(sep, maxsplit)` on a character list:
at most `maxsplit` splits, remaining separators stay in the last field. -/
def pySplitChars (sep : Char) : ℕ → List Char → List (List Char)
  | 0, cs => [cs]
  | n + 1, cs =>
    match cs.dropWhile (fun c => ¬ c = sep) with
    | [] => [cs]
    | _ :: post => cs.takeWhile (fun c => ¬ c = sep) :: pySplitChars sep n post

/-- model of Python `str.split(sep, maxsplit)`. -/
def pySplit (s : String) (sep : Char) (maxsplit : ℕ) : List String :=
  (pySplitChars sep maxsplit s.data).map String.mk

/-- model of Python `str.split(sep)` (unbounded): the length of the string
is always enough fuel. -/
def pySplitAll (s : String) (sep : Char) : List String :=
  (pySplitChars sep s.data.length s.data).map String.mk

/-- model of Python `needle in haystack`: `l1` occurs as a prefix of `l2`. -/
def listStartsWith : List Char → List Char → Bool
  | [], _ => true
  | _ :: _, [] => false
  | a :: as, b :: bs => a = b && listStartsWith as bs

/-- model of Python `needle in haystack` (contiguous substring test). -/
def hasSub (needle : List Char) : List Char → Bool
  | [] => listStartsWith needle []
  | c :: cs => listStartsWith needle (c :: cs) || hasSub needle cs

/-- model of Python `str.lower()` (ASCII; the needles it is compared
against in the source are ASCII). -/
def lowerChars (cs : List Char) : List Char :=
  cs.map Char.toLower

/-- model of Python `str.upper()` (ASCII; applied to currency codes). -/
def upperStr (s : String) : String :=
  ⟨s.data.map Char.toUpper⟩

/-! ## Decimal digits and number parsing -/

/-- the character for a decimal digit `d < 10`. -/
def digitChar (d : ℕ) : Char :=
  Char.ofNat (48 + d)

/-- value of a big-endian digit string, as read by Python's `int`/`float`. -/
def digitsToNat (cs : List Char) : ℕ :=
  cs.foldl (fun a c => 10 * a + (c.toNat - 48)) 0

/-- big-endian decimal digits of `n`, with explicit fuel so that the kernel
can evaluate it (`fuel ≥ n` suffices). -/
def natDigitsAux : ℕ → ℕ → List Char
  | 0, _ => []
  | fuel + 1, n => if n = 0 then [] else natDigitsAux fuel (n / 10) ++ [digitChar (n % 10)]

/-- decimal representation of a natural number, as Python's `str` writes it. -/
def natDigits (n : ℕ) : List Char :=
  if n = 0 then ['0'] else natDigitsAux n n

/-- model of the exact value flowing through a Python f-string such as
`f"{rate}"`: CPython guarantees `float(f"{x}") == x`, and the embedding keeps
the identity exact by writing the rational as `num/den` (`pyFloat` below
reads this form back). -/
def ratStr (q : ℚ) : String :=
  ⟨(if q.num < 0 then ['-'] else []) ++ natDigits q.num.natAbs ++ '/' :: natDigits q.den⟩

/-- unsigned numeric literal accepted by the embedding's `float()`:
`digits`, `digits.digits`, or the serialised `digits/digits` form emitted by
`ratStr`.  Values are built with `mkRat` so they evaluate in the kernel. -/
def parseUnsigned (cs : List Char) : Option ℚ :=
  let ds := cs.takeWhile Char.isDigit
  let rest := cs.dropWhile Char.isDigit
  if ds = [] then none
  else if rest = [] then some (mkRat (digitsToNat ds) 1)
  else if rest.head? = some '.' ∧ rest.tail.all Char.isDigit then
    some (mkRat (digitsToNat (ds ++ rest.tail)) (10 ^ rest.tail.length))
  else if rest.head? = some '/' ∧ rest.tail ≠ [] ∧ rest.tail.all Char.isDigit ∧
      digitsToNat rest.tail ≠ 0 then
    some (mkRat (digitsToNat ds) (digitsToNat rest.tail))
  else none

/-- signed numeric literal: an optional leading minus sign. -/
def parseSigned (cs : List Char) : Option ℚ :=
  if cs.head? = some '-' then (parseUnsigned cs.tail).map Neg.neg else parseUnsigned cs

/-- model of Python `float(s)` returning `none` where Python raises
`ValueError` (exponent forms, `inf`/`nan` and unicode digits are not used by
the source and are not modelled). -/
def pyFloat (s : String) : Option ℚ :=
  parseSigned (pyStripChars s.data)

/-- model of Python `int(s)` returning `none` where Python raises. -/
def pyInt (s : String) : Option ℤ :=
  match pyStripChars s.data with
  | '-' :: ds => if !ds.isEmpty && ds.all Char.isDigit then some (-(digitsToNat ds : ℤ)) else none
  | ds => if !ds.isEmpty && ds.all Char.isDigit then some (digitsToNat ds : ℤ) else none

/-- `is_number_message` from `bot.py`: strip, turn `,` into `.`, then match
the regex `^-?\d+\.?\d*$`. -/
def is_number_message (text : String) : Bool :=
  let s := (pyStripChars text.data).map (fun c => if c = ',' then '.' else c)
  let core := fun (cs : List Char) =>
    let ds := cs.takeWhile Char.isDigit
    let rest := cs.dropWhile Char.isDigit
    !ds.isEmpty &&
      match rest with
      | [] => true
      | '.' :: fr => fr.all Char.isDigit
      | _ => false
  !s.isEmpty &&
    match s with
    | '-' :: cs => core cs
    | cs => core cs

/-- `parse_amount` from `bot.py`: strip, `,` → `.`, then `float`.  It is
only called on strings accepted by `is_number_message`, where the parse
succeeds; the `getD` default is unreachable there. -/
def parse_amount (text : String) : ℚ :=
  (parseSigned ((pyStripChars text.data).map (fun c => if c = ',' then '.' else c))).getD 0

/-! ## Round-trip facts about the numeric encoding -/

theorem takeWhile_append_stop {p : Char → Bool} {l1 : List Char} (l2 : List Char) (x : Char)
    (h1 : ∀ c ∈ l1, p c = true) (hx : p x = false) :
    (l1 ++ x :: l2).takeWhile p = l1 := by
  induction l1 with
  | nil => simp [List.takeWhile_cons, hx]
  | cons a l ih =>
    have ha : p a = true := h1 a (by simp)
    simp only [List.cons_append, List.takeWhile_cons, ha, if_true]
    simp only [ih (fun c hc => h1 c (by simp [hc]))]

theorem dropWhile_append_stop {p : Char → Bool} {l1 : List Char} (l2 : List Char) (x : Char)
    (h1 : ∀ c ∈ l1, p c = true) (hx : p x = false) :
    (l1 ++ x :: l2).dropWhile p = x :: l2 := by
  induction l1 with
  | nil => simp [List.dropWhile_cons, hx]
  | cons a l ih =>
    have ha : p a = true := h1 a (by simp)
    simp only [List.cons_append, List.dropWhile_cons, ha, if_true]
    exact ih (fun c hc => h1 c (by simp [hc]))

theorem dropWhile_of_none {p : Char → Bool} {l : List Char}
    (h : ∀ c ∈ l, p c = false) : l.dropWhile p = l := by
  cases l with
  | nil => rfl
  | cons a l => simp [List.dropWhile_cons, h a (by simp)]

theorem pyStripChars_of_no_space {l : List Char}
    (h : ∀ c ∈ l, isPySpace c = false) : pyStripChars l = l := by
  unfold pyStripChars
  rw [dropWhile_of_none h, dropWhile_of_none (fun c hc => h c (List.mem_reverse.mp hc)),
    List.reverse_reverse]

theorem digitChar_isDigit {d : ℕ} (h : d < 10) : (digitChar d).isDigit = true := by
  interval_cases d <;> decide

theorem digitChar_val {d : ℕ} (h : d < 10) : (digitChar d).toNat - 48 = d := by
  interval_cases d <;> decide

theorem digitsToNat_append_digit (l : List Char) (c : Char) :
    digitsToNat (l ++ [c]) = 10 * digitsToNat l + (c.toNat - 48) := by
  simp [digitsToNat, List.foldl_append]

theorem natDigitsAux_all_digit : ∀ (fuel n : ℕ), ∀ c ∈ natDigitsAux fuel n, c.isDigit = true := by
  intro fuel
  induction fuel with
  | zero => intro n c hc; simp [natDigitsAux] at hc
  | succ fuel ih =>
    intro n c hc
    by_cases hn : n = 0
    · simp [natDigitsAux, hn] at hc
    · simp only [natDigitsAux, if_neg hn, List.mem_append, List.mem_singleton] at hc
      rcases hc with hc | hc
      · exact ih _ c hc
      · subst hc; exact digitChar_isDigit (Nat.mod_lt _ (by norm_num))

theorem natDigitsAux_value : ∀ (fuel n : ℕ), n ≤ fuel →
    digitsToNat (natDigitsAux fuel n) = n := by
  intro fuel
  induction fuel with
  | zero => intro n hn; interval_cases n; rfl
  | succ fuel ih =>
    intro n hn
    by_cases h0 : n = 0
    · subst h0; simp [natDigitsAux, digitsToNat]
    · have hdiv : n / 10 ≤ fuel := by
        have : n / 10 < n := Nat.div_lt_self (Nat.pos_of_ne_zero h0) (by norm_num)
        omega
      simp only [natDigitsAux, if_neg h0, digitsToNat_append_digit, ih _ hdiv,
        digitChar_val (Nat.mod_lt _ (show 0 < 10 by norm_num))]
      omega

theorem natDigits_all_digit (n : ℕ) : ∀ c ∈ natDigits n, c.isDigit = true := by
  by_cases h0 : n = 0
  · subst h0; intro c hc; simp [natDigits] at hc; subst hc; decide
  · simpa [natDigits, h0] using natDigitsAux_all_digit n n

theorem natDigits_value (n : ℕ) : digitsToNat (natDigits n) = n := by
  by_cases h0 : n = 0
  · subst h0; rfl
  · simpa [natDigits, h0] using natDigitsAux_value n n le_rfl

theorem natDigits_ne_nil (n : ℕ) : natDigits n ≠ [] := by
  by_cases h0 : n = 0
  · subst h0; simp [natDigits]
  · have h1 : 1 ≤ n := Nat.one_le_iff_ne_zero.mpr h0
    obtain ⟨fuel, hfuel⟩ : ∃ k, n = k + 1 := ⟨n - 1, by omega⟩
    simp only [natDigits, if_neg h0]
    rw [hfuel]
    simp [natDigitsAux, show ¬ (fuel + 1 = 0) by omega]

theorem isDigit_ne_char {c x : Char} (hc : c.isDigit = true) (hx : x.isDigit = false) :
    ¬ c = x := by
  intro h; subst h; rw [hc] at hx; cases hx

theorem isDigit_not_space {c : Char} (h : c.isDigit = true) : isPySpace c = false := by
  unfold isPySpace
  simp only [Bool.or_eq_false_iff, decide_eq_false_iff_not]
  refine ⟨⟨⟨⟨⟨?_, ?_⟩, ?_⟩, ?_⟩, ?_⟩, ?_⟩ <;>
    (intro he; subst he; exact absurd h (by decide))

/-- the serialised form of a positive rational parses back to exactly the
same rational: the embedding's counterpart of CPython's
`float(f"{x}") == x` guarantee. -/
theorem pyFloat_ratStr {q : ℚ} (hq : 0 < q) : pyFloat (ratStr q) = some q := by
  have hnum : 0 < q.num := Rat.num_pos.mpr hq
  have hden : q.den ≠ 0 := q.den_nz
  have h1 : ¬ q.num < 0 := by omega
  have hcs :
      (ratStr q).data = natDigits q.num.natAbs ++ '/' :: natDigits q.den := by
    unfold ratStr
    rw [if_neg h1]
    rfl
  have hall : ∀ c ∈ (ratStr q).data, isPySpace c = false := by
    rw [hcs]
    intro c hc
    rcases List.mem_append.mp hc with hc | hc
    · exact isDigit_not_space (natDigits_all_digit _ c hc)
    · rcases List.mem_cons.mp hc with hc | hc
      · subst hc; decide
      · exact isDigit_not_space (natDigits_all_digit _ c hc)
  have hhead : (natDigits q.num.natAbs ++ '/' :: natDigits q.den).head? ≠ some '-' := by
    obtain ⟨a, l, hal⟩ : ∃ a l, natDigits q.num.natAbs = a :: l := by
      cases h : natDigits q.num.natAbs with
      | nil => exact absurd h (natDigits_ne_nil _)
      | cons a l => exact ⟨a, l, rfl⟩
    have hasign : a.isDigit = true := natDigits_all_digit _ a (by rw [hal]; simp)
    rw [hal]
    simp only [List.cons_append, List.head?_cons, ne_eq, Option.some.injEq]
    exact isDigit_ne_char hasign (by decide)
  unfold pyFloat
  rw [pyStripChars_of_no_space hall, hcs]
  unfold parseSigned
  rw [if_neg hhead]
  unfold parseUnsigned
  rw [takeWhile_append_stop _ _ (natDigits_all_digit _) (by decide),
    dropWhile_append_stop _ _ (natDigits_all_digit _) (by decide)]
  simp only []
  rw [if_neg (natDigits_ne_nil _)]
  rw [if_neg (by simp : ¬ ('/' :: natDigits q.den = []))]
  rw [if_neg (by
    intro hcon
    have := hcon.1
    simp only [List.head?_cons, Option.some.injEq] at this
    exact absurd this (by decide))]
  rw [if_pos (by
    refine ⟨by simp, ?_, ?_, ?_⟩
    · simp [natDigits_ne_nil]
    · simp only [List.tail_cons]
      exact List.all_eq_true.mpr (natDigits_all_digit _)
    · simp only [List.tail_cons, natDigits_value]
      exact hden)]
  simp only [List.tail_cons, natDigits_value]
  have hcast : ((q.num.natAbs : ℤ)) = q.num := Int.natAbs_of_nonneg (le_of_lt hnum)
  rw [hcast, Rat.mkRat_self]

/-! ## Ledger (the `db` module, modelled from the spec) -/

/-- Modelled from the spec: the Trip record of §3 — owner, name, currency
pair, rate (home units per 1 destination unit) and running destination
balance. -/
structure Trip where
  id : ℤ
  owner : ℤ
  name : String
  home_currency : String
  dest_currency : String
  rate : ℚ
  balance_dest : ℚ
deriving DecidableEq

/-- Modelled from the spec: the Expense record of §3 — owning trip and the
committed destination/home amounts (snapshots, never recomputed). -/
structure Expense where
  trip_id : ℤ
  amount_dest : ℚ
  amount_home : ℚ
deriving DecidableEq

/-- Modelled from the spec: the storage owned by the `db` module — trips,
expense rows, and a fresh-id counter standing for the SQLite rowid. -/
structure Ledger where
  trips : List Trip
  expenses : List Expense
  nextId : ℤ
deriving DecidableEq

/-- key used by ownership lookups: a trip is found by (id, owner). -/
def tripKey (t : Trip) : ℤ × ℤ :=
  (t.id, t.owner)

/-- Modelled from the spec: `get_trip(trip_id, owner)` — the trip with this
id when it is owned by the caller, otherwise nothing. -/
def findTrip (L : Ledger) (tid owner : ℤ) : Option Trip :=
  L.trips.find? (fun t => decide (t.id = tid ∧ t.owner = owner))

/-- Modelled from the spec: `db.add_expense(trip_id, owner, amount_dest,
amount_home)` — declined (`false`, ledger unchanged) if the trip is not
found, not owned by the caller, `amount_dest ≤ 0`, or `amount_dest` exceeds
the current `balance_dest`; otherwise decrements the balance and appends one
Expense row. -/
def add_expense (L : Ledger) (tid owner : ℤ) (amount_dest amount_home : ℚ) :
    Bool × Ledger :=
  match findTrip L tid owner with
  | none => (false, L)
  | some t =>
    if amount_dest ≤ 0 ∨ t.balance_dest < amount_dest then (false, L)
    else
      (true,
        { L with
          trips := L.trips.map (fun u =>
            if u.id = tid ∧ u.owner = owner then
              { u with balance_dest := u.balance_dest - amount_dest }
            else u)
          expenses := L.expenses ++ [⟨tid, amount_dest, amount_home⟩] })

/-- Modelled from the spec: `db.update_trip_rate(trip_id, owner, new_rate)`
— requires `new_rate > 0`; updates the rate field only, leaving balance and
expenses untouched. -/
def update_trip_rate (L : Ledger) (tid owner : ℤ) (new_rate : ℚ) : Ledger :=
  if new_rate ≤ 0 then L
  else
    { L with
      trips := L.trips.map (fun u =>
        if u.id = tid ∧ u.owner = owner then { u with rate := new_rate } else u) }

/-- Modelled from the spec: `db.create_trip(owner, name, home, dest, rate,
amount_home, amount_dest)` — inserts a Trip with `balance_dest =
amount_dest` and returns its fresh id; fails if `home = dest`. -/
def create_trip (L : Ledger) (owner : ℤ) (name home dest : String)
    (rate amount_home amount_dest : ℚ) : Ledger × Option ℤ :=
  if home = dest then (L, none)
  else
    ({ L with
       trips := L.trips ++ [⟨L.nextId, owner, name, home, dest, rate, amount_dest⟩]
       nextId := L.nextId + 1 },
     some L.nextId)

/-- one attempted expense commit, as fed to the C1 property test. -/
structure ExpenseAttempt where
  tid : ℤ
  owner : ℤ
  amount_dest : ℚ
  amount_home : ℚ
deriving DecidableEq

/-- run a sequence of `add_expense` attempts, keeping whatever each attempt
leaves in the ledger. -/
def runExpenses (L : Ledger) (as' : List ExpenseAttempt) : Ledger :=
  as'.foldl (fun acc a => (add_expense acc a.tid a.owner a.amount_dest a.amount_home).2) L

/-- well-formedness of the ledger as the spec demands it: trip keys are
unique (ids are unique per owner) and every destination balance is
non-negative. -/
def LedgerWF (L : Ledger) : Prop :=
  (L.trips.map tripKey).Nodup ∧ ∀ t ∈ L.trips, 0 ≤ t.balance_dest

/-! ## C1: the balance invariant of add_expense -/

theorem find?_map_key_preserving (l : List Trip) (p : Trip → Bool) (g : Trip → Trip)
    (hp : ∀ u, p (g u) = p u) :
    (l.map g).find? p = (l.find? p).map g := by
  rw [List.find?_map]
  have : p ∘ g = p := funext fun u => hp u
  rw [this]

theorem findTrip_mem_key {L : Ledger} {tid owner : ℤ} {t : Trip}
    (hf : findTrip L tid owner = some t) :
    t ∈ L.trips ∧ t.id = tid ∧ t.owner = owner := by
  unfold findTrip at hf
  have h1 := List.find?_some hf
  simp only [decide_eq_true_eq] at h1
  exact ⟨List.mem_of_find?_eq_some hf, h1⟩

theorem add_expense_wf (L : Ledger) (tid owner : ℤ) (ad ah : ℚ) (h : LedgerWF L) :
    LedgerWF (add_expense L tid owner ad ah).2 := by
  cases hf : findTrip L tid owner with
  | none => simp only [add_expense, hf]; exact h
  | some t =>
    by_cases hc : ad ≤ 0 ∨ t.balance_dest < ad
    · simp only [add_expense, hf, if_pos hc]; exact h
    · simp only [add_expense, hf, if_neg hc]
      push_neg at hc
      obtain ⟨hpos, hle⟩ := hc
      obtain ⟨hnd, hbal⟩ := h
      refine ⟨?_, ?_⟩
      · have hkeys :
            (L.trips.map (fun u =>
              if u.id = tid ∧ u.owner = owner then
                { u with balance_dest := u.balance_dest - ad }
              else u)).map tripKey = L.trips.map tripKey := by
          rw [List.map_map]
          apply List.map_congr_left
          intro u _
          by_cases hu' : u.id = tid ∧ u.owner = owner <;> simp [tripKey, hu']
        rw [hkeys]
        exact hnd
      · intro t' ht'
        rw [List.mem_map] at ht'
        obtain ⟨u, hu, rfl⟩ := ht'
        by_cases hmatch : u.id = tid ∧ u.owner = owner
        · have htmem : t ∈ L.trips := (findTrip_mem_key hf).1
          have htkey : t.id = tid ∧ t.owner = owner := (findTrip_mem_key hf).2
          have hut : u = t :=
            List.inj_on_of_nodup_map hnd hu htmem
              (by simp [tripKey, hmatch.1, hmatch.2, htkey.1, htkey.2])
          subst hut
          simp only [if_pos hmatch]
          linarith
        · simp only [if_neg hmatch]
          exact hbal u hu

theorem runExpenses_wf (L : Ledger) (as' : List ExpenseAttempt) (h : LedgerWF L) :
    LedgerWF (runExpenses L as') := by
  induction as' generalizing L with
  | nil => exact h
  | cons a as ih =>
    have hstep : runExpenses L (a :: as) =
        runExpenses (add_expense L a.tid a.owner a.amount_dest a.amount_home).2 as := rfl
    rw [hstep]
    exact ih _ (add_expense_wf _ _ _ _ _ h)

/-- C1: for every trip, after any sequence of `add_expense` attempts on a
well-formed ledger, `balance_dest` stays non-negative; an attempt on a trip
that is not found / not owned, or with `amount_dest ≤ 0`, or with
`amount_dest` above the current balance is declined and leaves the ledger
(balances and expense list) unchanged — rejected, never clamped — while a
successful attempt decrements the balance by exactly `amount_dest` and
appends exactly one Expense row. -/
theorem add_expense_balance_invariant (L : Ledger) (hWF : LedgerWF L)
    (as' : List ExpenseAttempt) (tid owner : ℤ) (ad ah : ℚ) :
    (∀ t ∈ (runExpenses L as').trips, 0 ≤ t.balance_dest)
    ∧ ((add_expense L tid owner ad ah).1 = false → (add_expense L tid owner ad ah).2 = L)
    ∧ (findTrip L tid owner = none → (add_expense L tid owner ad ah).1 = false)
    ∧ (∀ t, findTrip L tid owner = some t →
        ((ad ≤ 0 ∨ t.balance_dest < ad) → (add_expense L tid owner ad ah).1 = false)
        ∧ (0 < ad → ad ≤ t.balance_dest →
            (add_expense L tid owner ad ah).1 = true
            ∧ (add_expense L tid owner ad ah).2.expenses = L.expenses ++ [⟨tid, ad, ah⟩]
            ∧ findTrip (add_expense L tid owner ad ah).2 tid owner
                = some { t with balance_dest := t.balance_dest - ad })) := by
  refine ⟨(runExpenses_wf L as' hWF).2, ?_, ?_, ?_⟩
  · intro hfalse
    cases hf : findTrip L tid owner with
    | none => simp only [add_expense, hf]
    | some t =>
      by_cases hc : ad ≤ 0 ∨ t.balance_dest < ad
      · simp only [add_expense, hf, if_pos hc]
      · simp only [add_expense, hf, if_neg hc] at hfalse
        cases hfalse
  · intro hnone
    simp only [add_expense, hnone]
  · intro t hf
    constructor
    · intro hc
      simp only [add_expense, hf, if_pos hc]
    · intro hpos hle
      have hc : ¬ (ad ≤ 0 ∨ t.balance_dest < ad) := by
        push_neg
        exact ⟨hpos, hle⟩
      have htkey : t.id = tid ∧ t.owner = owner := (findTrip_mem_key hf).2
      refine ⟨?_, ?_, ?_⟩
      · simp only [add_expense, hf, if_neg hc]
      · simp only [add_expense, hf, if_neg hc]
      · simp only [add_expense, hf, if_neg hc]
        unfold findTrip at hf ⊢
        rw [find?_map_key_preserving _ _ _ (by
          intro u
          by_cases hu' : u.id = tid ∧ u.owner = owner <;> simp [hu'])]
        rw [hf]
        simp only [Option.map_some']
        rw [if_pos htkey]

/-- concrete ledger used to witness C1: one trip with balance 100. -/
def exLedger : Ledger :=
  { trips := [{ id := 1, owner := 7, name := "Test", home_currency := "RUB",
                dest_currency := "THB", rate := 8, balance_dest := 100 }],
    expenses := [], nextId := 2 }

/-- concrete attempt sequence used to witness C1: a normal spend, an
over-limit attempt (rejected), and a spend of the exact remainder. -/
def exAttempts : List ExpenseAttempt :=
  [⟨1, 7, 30, 240⟩, ⟨1, 7, 200, 1600⟩, ⟨1, 7, 70, 560⟩]

theorem add_expense_balance_invariant_witness :
    LedgerWF exLedger ∧
    ∀ t ∈ (runExpenses exLedger exAttempts).trips, 0 ≤ t.balance_dest :=
  ⟨⟨by decide, by decide⟩,
   (add_expense_balance_invariant exLedger ⟨by decide, by decide⟩ exAttempts 1 7 30 240).1⟩

/-! ## C7: scaled-integer amount encoding -/

/-- scaled-integer encoding placed in the `ex_` confirmation option payload
by `expense_confirm_markup` (bot.py): `int(round(amount * 100))`. -/
def encodeAmount (a : ℚ) : ℤ :=
  round (a * 100)

/-- decoding performed by `cb_expense_confirm` (bot.py):
`int(parts[i]) / 100.0`. -/
def decodeAmount (k : ℤ) : ℚ :=
  (k : ℚ) / 100

/-- C7: encoding an amount as `round(amount * 100)` and decoding by
dividing by 100 recovers the original value exactly, for every amount
representable to two decimal places. -/
theorem scaled_amount_roundtrip (a : ℚ) (h : ∃ k : ℤ, a = (k : ℚ) / 100) :
    decodeAmount (encodeAmount a) = a := by
  obtain ⟨k, rfl⟩ := h
  unfold encodeAmount decodeAmount
  rw [div_mul_cancel₀ _ (by norm_num : (100 : ℚ) ≠ 0), round_intCast]

theorem scaled_amount_roundtrip_aux : ((1250 : ℚ) / 100) = ((1250 : ℤ) : ℚ) / 100 := by
  norm_num

theorem scaled_amount_roundtrip_witness :
    decodeAmount (encodeAmount ((1250 : ℚ) / 100)) = (1250 : ℚ) / 100 :=
  scaled_amount_roundtrip _ ⟨1250, scaled_amount_roundtrip_aux⟩

/-! ## Rate cache and `convert` (`api_client.py`) -/

/-- error kinds the client can return (`api_client.py`). -/
inductive ErrKind where
  | request_failed
  | invalid_response
  | api_error
deriving DecidableEq

/-- result dictionary of `convert` (`api_client.py`): the success shape
`{success, from, to, amount, result}` or the failure shape
`{success: False, error, code?, info}`. -/
inductive ConvResult where
  | ok (src dst : String) (amount result : ℚ)
  | err (error : ErrKind) (code : Option String) (info : String)
deriving DecidableEq

/-- cached value for a pair: the stored success dictionary
(`_convert_cache[key] = (result, now)`, `api_client.py`).  `success` is
`true` for every entry the code itself stores; it is kept as a field because
the code re-checks `cached_result.get("success")` on each hit. -/
structure CacheEntry where
  success : Bool
  src : String
  dst : String
  amount : ℚ
  result : ℚ
deriving DecidableEq

/-- the module-level `_convert_cache` dict: key `(from, to)` (uppercased),
value `(entry, cached_at)`.  Lookup returns the first binding, storing
replaces any binding with the same key. -/
def Cache : Type :=
  List ((String × String) × (CacheEntry × ℚ))

instance : DecidableEq Cache := by
  unfold Cache
  infer_instance

/-- dict lookup `_convert_cache[key]`. -/
def cacheFind (c : Cache) (k : String × String) : Option (CacheEntry × ℚ) :=
  (c.find? (fun e => e.1 = k)).map (·.2)

/-- dict assignment `_convert_cache[key] = v`. -/
def cacheStore (c : Cache) (k : String × String) (v : CacheEntry × ℚ) : Cache :=
  (k, v) :: c.filter (fun e => ¬ e.1 = k)

/-- `_CONVERT_CACHE_TTL` from `api_client.py`. -/
def CONVERT_CACHE_TTL : ℚ :=
  300

/-- the parsed JSON body of a provider response, with the dictionary
accesses of `api_client.py` (`data.get(...)`) made explicit: `success`
defaults to `False`; `error` may be a dict (fields `code`/`info`, each
possibly absent) or a bare scalar; `query`/`result` fields may be absent. -/
structure ApiData where
  success : Bool
  errorIsDict : Bool
  errorCode : Option String
  errorInfo : Option String
  errorScalar : String
  topInfo : Option String
  queryFrom : Option String
  queryTo : Option String
  queryAmount : Option ℚ
  result : Option ℚ
deriving DecidableEq

/-- what the network layer did for one `requests.get` call: raised a
`RequestException`, returned a body that is not JSON (`ValueError` from
`r.json()`), or returned parsed JSON. -/
inductive RemoteOutcome where
  | reqError (msg : String)
  | jsonError (msg : String)
  | okData (d : ApiData)
deriving DecidableEq

/-- the remote-lookup tail of `convert` (`api_client.py`, the code after the
cache check): performs exactly one external call, caches only the success
dictionary, and classifies failures as `request_failed` / `invalid_response`
/ `api_error`. -/
def convertRemote (cache : Cache) (now : ℚ) (remote : RemoteOutcome)
    (f t : String) (amount : ℚ) : ConvResult × Cache × ℕ :=
  match remote with
  | .reqError m =>
    (.err .request_failed none ("Не удалось связаться с API: " ++ m), cache, 1)
  | .jsonError m =>
    (.err .invalid_response none m, cache, 1)
  | .okData d =>
    if d.success = false then
      if d.errorIsDict then
        (.err .api_error (some (d.errorCode.getD "?"))
          (d.errorInfo.getD "Неизвестная ошибка API."), cache, 1)
      else
        (.err .api_error (some d.errorScalar) (d.topInfo.getD "Ошибка API."), cache, 1)
    else
      (.ok (d.queryFrom.getD f) (d.queryTo.getD t) (d.queryAmount.getD amount)
        (d.result.getD 0),
       cacheStore cache (f, t)
         ({ success := true, src := d.queryFrom.getD f, dst := d.queryTo.getD t,
            amount := d.queryAmount.getD amount, result := d.result.getD 0 }, now),
       1)

/-- `convert(access_key, from_currency, to_currency, amount)` from
`api_client.py`.  The outcome of the single possible `requests.get` call is
supplied as `remote`; the third component counts how many external calls
were made (0 on a cache hit, 1 otherwise).  The floor guard `1e-9` is
embedded as the exact rational `1/1000000000`. -/
def convert (cache : Cache) (now : ℚ) (remote : RemoteOutcome)
    (fromCur toCur : String) (amount : ℚ) : ConvResult × Cache × ℕ :=
  let f := upperStr fromCur
  let t := upperStr toCur
  match cacheFind cache (f, t) with
  | some (ce, cachedAt) =>
    if now - cachedAt < CONVERT_CACHE_TTL ∧ ce.success = true then
      (.ok f t amount (amount * (ce.result / max ce.amount ((1 : ℚ) / 1000000000))),
       cache, 0)
    else convertRemote cache now remote f t amount
  | none => convertRemote cache now remote f t amount

theorem convertRemote_calls (cache : Cache) (now : ℚ) (remote : RemoteOutcome)
    (f t : String) (amount : ℚ) :
    (convertRemote cache now remote f t amount).2.2 = 1 := by
  cases remote with
  | reqError m => rfl
  | jsonError m => rfl
  | okData d =>
    by_cases hs : d.success = false
    · by_cases hd : d.errorIsDict = true <;> simp [convertRemote, hs, hd]
    · simp [convertRemote, hs]

theorem convert_miss_eq (cache : Cache) (now : ℚ) (remote : RemoteOutcome)
    (fromCur toCur : String) (amount : ℚ)
    (hmiss : ∀ ce cachedAt,
        cacheFind cache (upperStr fromCur, upperStr toCur) = some (ce, cachedAt) →
        ¬ (now - cachedAt < CONVERT_CACHE_TTL ∧ ce.success = true)) :
    convert cache now remote fromCur toCur amount
      = convertRemote cache now remote (upperStr fromCur) (upperStr toCur) amount := by
  simp only [convert]
  split
  · rename_i ce cachedAt heq
    rw [if_neg (hmiss _ _ heq)]
  · rfl

theorem cacheFind_store (c : Cache) (k : String × String) (v : CacheEntry × ℚ) :
    cacheFind (cacheStore c k v) k = some v := by
  unfold cacheFind cacheStore
  rw [List.find?_cons_of_pos _ (by simp)]
  rfl

/-- C3: a `convert` call that finds a successful cache entry for the
uppercased pair with `now - cached_at < 300` performs no external request
and returns success with `amount` scaled by the per-unit rate
`cached.result / max(cached.amount, 1e-9)`; any call for which no
sufficiently fresh successful entry exists performs exactly one external
lookup. -/
theorem convert_cache_hit (cache : Cache) (now : ℚ) (remote : RemoteOutcome)
    (fromCur toCur : String) (amount : ℚ) (ce : CacheEntry) (cachedAt : ℚ)
    (hfind : cacheFind cache (upperStr fromCur, upperStr toCur) = some (ce, cachedAt))
    (hsucc : ce.success = true)
    (hfresh : now - cachedAt < CONVERT_CACHE_TTL) :
    convert cache now remote fromCur toCur amount
      = (.ok (upperStr fromCur) (upperStr toCur) amount
          (amount * (ce.result / max ce.amount ((1 : ℚ) / 1000000000))), cache, 0)
    ∧ (∀ (cache' : Cache) (now' : ℚ) (f' t' : String),
        (∀ ce' cachedAt',
            cacheFind cache' (upperStr f', upperStr t') = some (ce', cachedAt') →
            ¬ (now' - cachedAt' < CONVERT_CACHE_TTL ∧ ce'.success = true)) →
        (convert cache' now' remote f' t' amount).2.2 = 1) := by
  constructor
  · simp only [convert, hfind]
    rw [if_pos ⟨hfresh, hsucc⟩]
  · intro cache' now' f' t' hmiss
    rw [convert_miss_eq cache' now' remote f' t' amount hmiss]
    exact convertRemote_calls _ _ _ _ _ _

/-- C4: a `convert` call that takes the remote-lookup path stores, on
success, the fresh `(principal, result, timestamp)` for the pair
(overwriting any prior entry, as the subsequent lookup shows) and returns
the success dictionary; on failure it leaves the cache unchanged and
returns a structured failure whose kind is `request_failed`,
`invalid_response`, or `api_error` with the provider-supplied code and
message. -/
theorem convert_remote_contract (cache : Cache) (now : ℚ)
    (fromCur toCur : String) (amount : ℚ)
    (hmiss : ∀ ce cachedAt,
        cacheFind cache (upperStr fromCur, upperStr toCur) = some (ce, cachedAt) →
        ¬ (now - cachedAt < CONVERT_CACHE_TTL ∧ ce.success = true)) :
    (∀ d : ApiData, d.success = true →
        convert cache now (.okData d) fromCur toCur amount
          = (.ok (d.queryFrom.getD (upperStr fromCur)) (d.queryTo.getD (upperStr toCur))
              (d.queryAmount.getD amount) (d.result.getD 0),
             cacheStore cache (upperStr fromCur, upperStr toCur)
               ({ success := true, src := d.queryFrom.getD (upperStr fromCur),
                  dst := d.queryTo.getD (upperStr toCur),
                  amount := d.queryAmount.getD amount, result := d.result.getD 0 }, now),
             1)
        ∧ cacheFind (convert cache now (.okData d) fromCur toCur amount).2.1
              (upperStr fromCur, upperStr toCur)
            = some ({ success := true, src := d.queryFrom.getD (upperStr fromCur),
                      dst := d.queryTo.getD (upperStr toCur),
                      amount := d.queryAmount.getD amount, result := d.result.getD 0 }, now))
    ∧ (∀ m, convert cache now (.reqError m) fromCur toCur amount
          = (.err .request_failed none ("Не удалось связаться с API: " ++ m), cache, 1))
    ∧ (∀ m, convert cache now (.jsonError m) fromCur toCur amount
          = (.err .invalid_response none m, cache, 1))
    ∧ (∀ d : ApiData, d.success = false →
        convert cache now (.okData d) fromCur toCur amount
          = (.err .api_error
              (some (if d.errorIsDict then d.errorCode.getD "?" else d.errorScalar))
              (if d.errorIsDict then d.errorInfo.getD "Неизвестная ошибка API."
               else d.topInfo.getD "Ошибка API."),
             cache, 1)) := by
  refine ⟨?_, ?_, ?_, ?_⟩
  · intro d hd
    have hne : ¬ d.success = false := by rw [hd]; simp
    have h1 : convert cache now (.okData d) fromCur toCur amount
        = convertRemote cache now (.okData d) (upperStr fromCur) (upperStr toCur) amount :=
      convert_miss_eq _ _ _ _ _ _ hmiss
    constructor
    · rw [h1]
      simp only [convertRemote, if_neg hne]
    · rw [h1]
      simp only [convertRemote, if_neg hne]
      exact cacheFind_store _ _ _
  · intro m
    rw [convert_miss_eq _ _ _ _ _ _ hmiss]
    rfl
  · intro m
    rw [convert_miss_eq _ _ _ _ _ _ hmiss]
    rfl
  · intro d hd
    rw [convert_miss_eq _ _ _ _ _ _ hmiss]
    by_cases hdict : d.errorIsDict = true
    · simp only [convertRemote, if_pos hd, if_pos hdict]
    · simp only [convertRemote, if_pos hd, if_neg hdict]

/-- concrete cache used to witness C3: one fresh successful entry for
(USD, THB) cached at time 100 with principal 1 and result 32. -/
def exCache : Cache :=
  [(("USD", "THB"), ({ success := true, src := "USD", dst := "THB",
                       amount := 1, result := 32 }, 100))]

theorem convert_cache_hit_aux : (350 : ℚ) - 100 < CONVERT_CACHE_TTL := by
  norm_num [CONVERT_CACHE_TTL]

theorem convert_cache_hit_witness :
    convert exCache 350 (.reqError "boom") "usd" "thb" 5
      = (.ok "USD" "THB" 5
          ((5 : ℚ) * ((32 : ℚ) / max 1 ((1 : ℚ) / 1000000000))), exCache, 0) :=
  (convert_cache_hit exCache 350 (.reqError "boom") "usd" "thb" 5
    { success := true, src := "USD", dst := "THB", amount := 1, result := 32 } 100
    (by decide) (by decide) convert_cache_hit_aux).1

theorem convert_remote_contract_witness :
    convert [] 0 (.reqError "connection refused") "usd" "thb" 1
      = (.err .request_failed none
          ("Не удалось связаться с API: " ++ "connection refused"), [], 1) :=
  (convert_remote_contract [] 0 "usd" "thb" 1
    (fun _ _ h => Option.noConfusion h)).2.1 "connection refused"

/-! ## Conversation state and bot handlers (`bot.py`) -/

/-- one row of the user-state store: `{state, state_data}`. -/
structure UserState where
  tag : String
  data : String
deriving DecidableEq

/-- what a handler does to the stored conversation state:
`db.set_user_state`, `db.clear_state`, or nothing. -/
inductive StateEff where
  | set (tag : String) (payload : String)
  | clear
  | keep
deriving DecidableEq

/-- observable outcome of one handler run: the state-store effect, the
messages sent (in order), the ledger afterwards, and how many external
`convert` calls were made. -/
structure BotOut where
  eff : StateEff
  msgs : List String
  ledger : Ledger
  convCalls : ℕ
deriving DecidableEq

/-- the fixed limit-indicating substrings of `cb_newtrip_fetch_rate`
(bot.py): `("limit", "rate", "exceeded", "limitation", "maximum")`. -/
def limitWords : List String :=
  ["limit", "rate", "exceeded", "limitation", "maximum"]

/-- `any(w in info for w in ...)` over the lowered failure detail. -/
def classifyLimit (info : String) : Bool :=
  limitWords.any (fun w => hasSub w.data (lowerChars info.data))

/-- fixed user-facing message for a rate-limit failure (bot.py). -/
def msgLimit : String :=
  "Превышен лимит запросов к сервису курсов. Введите курс вручную (например по обменнику)."

/-- fixed user-facing message for any other provider failure (bot.py). -/
def msgUnavail : String :=
  "Сервис курсов временно недоступен. Введите курс вручную."

/-- the prompt appended after either failure message (bot.py):
`f"{msg}\n\nСколько {cur} за 1 {home_currency}? (одно число)"`. -/
def manualRatePrompt (msg cur home : String) : String :=
  msg ++ "\n\nСколько " ++ cur ++ " за 1 " ++ home ++ "? (одно число)"

/-- `main_menu_text()` from bot.py, sent by `send_main_menu` when no
custom text is given. -/
def mainMenuText : String :=
  "Главное меню. Выберите действие:\n\n• Создать новое путешествие — добавить поездку с валютной парой и курсом.\n• Мои путешествия — переключиться между поездками.\n• Баланс — посмотреть остаток по активному путешествию.\n• История расходов — список трат.\n• Изменить курс — задать курс вручную для выбранной поездки.\n• Удалить путешествие — удалить поездку и все её расходы."

/-- `handle_newtrip_country_to`'s resolution of the entered country:
the external lookup first, then the literal 3-letter currency-code
fallback. -/
def resolveDest (resolve : String → Option String) (country : String) : Option String :=
  match resolve country with
  | some c => some c
  | none =>
    if country.length = 3 ∧ country.data.all Char.isAlpha then some (upperStr country)
    else none

/-- `handle_newtrip_country_to(message, user_id, state_data)` from bot.py:
`state_data` is the home currency; the message text is the destination
country.  No `convert` call happens on any path. -/
def handle_newtrip_country_to (resolve : String → Option String) (L : Ledger)
    (stateData text : String) : BotOut :=
  let home := stateData
  let country := pyStrip text
  match resolveDest resolve country with
  | none =>
    { eff := .keep,
      msgs := ["Не удалось определить валюту. Введите страну или код валюты (3 буквы)."],
      ledger := L, convCalls := 0 }
  | some cur =>
    if cur = home then
      { eff := .keep,
        msgs := ["Валюта назначения должна отличаться от домашней. Введите другую страну."],
        ledger := L, convCalls := 0 }
    else
      { eff := .set "newtrip_choose_rate_source" (home ++ "|" ++ cur ++ "|" ++ country),
        msgs := ["Пара валют: " ++ home ++ " → " ++ cur ++
          ". Как задать курс?\n\nРекомендуем «Ввести вручную» — так не будет ошибок лимита API."],
        ledger := L, convCalls := 0 }

/-- `cb_newtrip_fetch_rate(c)` from bot.py.  `conv` is the result of the
`convert(ACCESS_KEY, home, cur, 1.0)` call; `.error` models the uncaught
Python exceptions of this handler (the `NameError` when the payload has
exactly two fields, and the `ZeroDivisionError` on a zero rate);
`convCalls` counts the `convert` invocation (0 on the guard paths that
return before it). -/
def cb_newtrip_fetch_rate (L : Ledger) (st : Option UserState) (conv : ConvResult) :
    Except String BotOut :=
  match st with
  | none =>
    .ok { eff := .keep, msgs := ["Сессия устарела. Начните создание поездки заново."],
          ledger := L, convCalls := 0 }
  | some s =>
    if ¬ s.tag = "newtrip_choose_rate_source" ∨ s.data = "" then
      .ok { eff := .keep, msgs := ["Сессия устарела. Начните создание поездки заново."],
            ledger := L, convCalls := 0 }
    else
      let parts := pySplit s.data '|' 2
      if parts.length < 2 then
        .ok { eff := .clear, msgs := [mainMenuText], ledger := L, convCalls := 0 }
      else if parts.length = 2 then
        .error "NameError: name 'cur' is not defined"
      else
        let home := parts.getD 0 ""
        let cur := parts.getD 1 ""
        let country := pyStrip (parts.getD 2 "")
        match conv with
        | .err _ _ info =>
          let isLimit := classifyLimit info
          let msg := if isLimit then msgLimit else msgUnavail
          .ok { eff := .set "newtrip_manual_rate" (home ++ "|" ++ cur ++ "|" ++ country),
                msgs := [manualRatePrompt msg cur home],
                ledger := L, convCalls := 1 }
        | .ok _ _ _ result =>
          if result = 0 then .error "ZeroDivisionError: float division by zero"
          else
            let rate := 1 / result
            .ok { eff := .set "newtrip_confirm_rate"
                    (home ++ "|" ++ cur ++ "|" ++ ratStr rate ++ "|" ++ country),
                  msgs := ["Текущий курс: 1 " ++ cur ++ " = " ++ ratStr rate ++ " " ++ home ++
                    " (1 " ++ home ++ " = " ++ ratStr result ++ " " ++ cur ++ ").\n\nВас устраивает?"],
                  ledger := L, convCalls := 1 }

/-- the `state == "newtrip_manual_rate"` branch of `handle_message`
(bot.py): numeric validation first, then the payload split; stores
rate = 1/input in a `newtrip_initial_sum` payload. -/
def handle_manual_rate (L : Ledger) (stateData text : String) : BotOut :=
  if ¬ is_number_message text = true ∨ parse_amount text ≤ 0 then
    { eff := .keep,
      msgs := ["Введите положительное число — курс (сколько валюты назначения за 1 единицу домашней)."],
      ledger := L, convCalls := 0 }
  else
    let manual_dest_per_home := parse_amount text
    let rate := 1 / manual_dest_per_home
    let parts := pySplit stateData '|' 2
    if parts.length < 2 then
      { eff := .clear, msgs := ["Ошибка. Начните создание заново."],
        ledger := L, convCalls := 0 }
    else
      let home := parts.getD 0 ""
      let dest := parts.getD 1 ""
      let name := if 2 < parts.length ∧ ¬ parts.getD 2 "" = "" then pyStrip (parts.getD 2 "")
                  else dest
      { eff := .set "newtrip_initial_sum"
          (home ++ "|" ++ dest ++ "|" ++ ratStr rate ++ "|" ++ name),
        msgs := ["Курс принят: 1 " ++ home ++ " = " ++ ratStr rate ++ " " ++ dest ++
          ". Введите начальную сумму в " ++ home ++ ":"],
        ledger := L, convCalls := 0 }

/-- `handle_newtrip_initial_sum(message, user_id, state_data)` from bot.py:
field-count check, then `float(parts[2])` (which raises on a malformed rate
field — modelled by `.error`), then numeric validation of the message, then
`amount_dest = amount_home / float(rate_str)` — which raises
`ZeroDivisionError` when the payload's rate field is 0, modelled by
`.error` — then `db.create_trip` and state clear.  The confirmation message
keeps only its leading sentence; the rest of the source message is
`db.format_balance` presentation, outside the core. -/
def handle_newtrip_initial_sum (L : Ledger) (uid : ℤ) (stateData text : String) :
    Except String BotOut :=
  let parts := pySplit stateData '|' 3
  if parts.length < 4 then
    .ok { eff := .clear, msgs := ["Что-то пошло не так. Начните создание поездки заново."],
          ledger := L, convCalls := 0 }
  else
    match pyFloat (parts.getD 2 "") with
    | none => .error "ValueError: could not convert string to float"
    | some rate =>
      let home := parts.getD 0 ""
      let dest := parts.getD 1 ""
      let name := if 3 < parts.length then parts.getD 3 "" else dest
      if ¬ is_number_message text = true ∨ parse_amount text ≤ 0 then
        .ok { eff := .keep,
              msgs := ["Введите положительное число — сумму в валюте отправления (домашней)."],
              ledger := L, convCalls := 0 }
      else if rate = 0 then .error "ZeroDivisionError: float division by zero"
      else
        let amount_home := parse_amount text
        let amount_dest := amount_home / rate
        let created := create_trip L uid name home dest rate amount_home amount_dest
        .ok { eff := .clear,
              msgs := ["Путешествие «" ++ name ++ "» создано."],
              ledger := created.1, convCalls := 0 }

/-- the `state == "setrate_trip"` branch of `handle_message` (bot.py):
numeric validation, `int(state_data)`, trip lookup, then
`db.update_trip_rate` and state clear.  The confirmation message keeps only
its leading words; the rest of the source message re-displays the trip,
which is presentation. -/
def handle_setrate_trip (L : Ledger) (uid : ℤ) (stateData text : String) : BotOut :=
  if ¬ is_number_message text = true ∨ parse_amount text ≤ 0 then
    { eff := .keep, msgs := ["Введите положительное число — новый курс."],
      ledger := L, convCalls := 0 }
  else
    match pyInt stateData with
    | none => { eff := .clear, msgs := [mainMenuText], ledger := L, convCalls := 0 }
    | some tid =>
      match findTrip L tid uid with
      | none =>
        { eff := .clear, msgs := ["Путешествие не найдено."], ledger := L, convCalls := 0 }
      | some _ =>
        let new_rate := parse_amount text
        { eff := .clear, msgs := ["Курс обновлён."],
          ledger := update_trip_rate L tid uid new_rate, convCalls := 0 }

/-- empty ledger used by several witnesses. -/
def emptyLedger : Ledger :=
  { trips := [], expenses := [], nextId := 1 }

/-! ## C8: the country_to transition -/

/-- C8: in state `newtrip_country_to`, an input resolving to the home
currency re-prompts and keeps the state (and ledger) unchanged; an input
resolving to any other currency moves to `newtrip_choose_rate_source` with
payload `home|dest|country`; and no external rate lookup happens on any
path of this transition. -/
theorem country_to_transition (resolve : String → Option String) (L : Ledger)
    (home text : String) :
    (handle_newtrip_country_to resolve L home text).convCalls = 0
    ∧ (resolveDest resolve (pyStrip text) = some home →
        handle_newtrip_country_to resolve L home text
          = { eff := .keep,
              msgs := ["Валюта назначения должна отличаться от домашней. Введите другую страну."],
              ledger := L, convCalls := 0 })
    ∧ (∀ cur, resolveDest resolve (pyStrip text) = some cur → ¬ cur = home →
        handle_newtrip_country_to resolve L home text
          = { eff := .set "newtrip_choose_rate_source"
                (home ++ "|" ++ cur ++ "|" ++ pyStrip text),
              msgs := ["Пара валют: " ++ home ++ " → " ++ cur ++
                ". Как задать курс?\n\nРекомендуем «Ввести вручную» — так не будет ошибок лимита API."],
              ledger := L, convCalls := 0 }) := by
  refine ⟨?_, ?_, ?_⟩
  · simp only [handle_newtrip_country_to]
    split
    · rfl
    · split <;> rfl
  · intro hres
    simp only [handle_newtrip_country_to, hres]
    rw [if_pos trivial]
  · intro cur hres hne
    simp only [handle_newtrip_country_to, hres]
    rw [if_neg hne]

/-- lookup table used to witness C8. -/
def exResolve : String → Option String :=
  fun c => if c = "Таиланд" then some "THB" else none

theorem country_to_transition_witness :
    handle_newtrip_country_to exResolve emptyLedger "RUB" "Таиланд"
      = { eff := .set "newtrip_choose_rate_source"
            ("RUB" ++ "|" ++ "THB" ++ "|" ++ pyStrip "Таиланд"),
          msgs := ["Пара валют: " ++ "RUB" ++ " → " ++ "THB" ++
            ". Как задать курс?\n\nРекомендуем «Ввести вручную» — так не будет ошибок лимита API."],
          ledger := emptyLedger, convCalls := 0 } :=
  (country_to_transition exResolve emptyLedger "RUB" "Таиланд").2.2 "THB"
    (by decide) (by decide)

/-! ## C6: provider failures surface only two fixed messages -/

theorem fetch_rate_failure_eq (L : Ledger) (data home cur country : String)
    (hsplit : pySplit data '|' 2 = [home, cur, country]) (hdata : ¬ data = "")
    (k : ErrKind) (code : Option String) (info : String) :
    cb_newtrip_fetch_rate L (some ⟨"newtrip_choose_rate_source", data⟩) (.err k code info)
      = .ok { eff := .set "newtrip_manual_rate" (home ++ "|" ++ cur ++ "|" ++ pyStrip country),
              msgs := [manualRatePrompt (if classifyLimit info then msgLimit else msgUnavail)
                cur home],
              ledger := L, convCalls := 1 } := by
  simp only [cb_newtrip_fetch_rate]
  rw [if_neg (by
    intro h
    exact h.elim (fun h1 => h1 trivial) hdata)]
  simp only [hsplit, List.length_cons, List.length_nil, List.getD_cons_zero,
    List.getD_cons_succ]
  rw [if_neg (by norm_num), if_neg (by norm_num)]

/-- C6: when the API fetch fails in state `newtrip_choose_rate_source`, the
state moves to `newtrip_manual_rate` with payload `home|dest|name`, and the
user-facing message is one of exactly two fixed texts chosen only by the
limit-substring classification of the failure detail — in particular two
failures with equal classification produce identical output, so the raw
provider error text never reaches the user. -/
theorem fetch_rate_failure_fixed_messages (L : Ledger) (data home cur country : String)
    (hsplit : pySplit data '|' 2 = [home, cur, country]) (hdata : ¬ data = "")
    (k : ErrKind) (code : Option String) (info : String) :
    cb_newtrip_fetch_rate L (some ⟨"newtrip_choose_rate_source", data⟩) (.err k code info)
      = .ok { eff := .set "newtrip_manual_rate" (home ++ "|" ++ cur ++ "|" ++ pyStrip country),
              msgs := [manualRatePrompt (if classifyLimit info then msgLimit else msgUnavail)
                cur home],
              ledger := L, convCalls := 1 }
    ∧ (∀ (k' : ErrKind) (code' : Option String) (info' : String),
        classifyLimit info' = classifyLimit info →
        cb_newtrip_fetch_rate L (some ⟨"newtrip_choose_rate_source", data⟩)
            (.err k' code' info')
          = cb_newtrip_fetch_rate L (some ⟨"newtrip_choose_rate_source", data⟩)
            (.err k code info)) := by
  refine ⟨fetch_rate_failure_eq L data home cur country hsplit hdata k code info, ?_⟩
  intro k' code' info' hclass
  rw [fetch_rate_failure_eq L data home cur country hsplit hdata k' code' info',
    fetch_rate_failure_eq L data home cur country hsplit hdata k code info, hclass]

theorem fetch_rate_failure_fixed_messages_witness :
    cb_newtrip_fetch_rate emptyLedger
        (some ⟨"newtrip_choose_rate_source", "RUB|THB|Таиланд"⟩)
        (.err .api_error (some "104") "Monthly usage limit has been reached")
      = .ok { eff := .set "newtrip_manual_rate"
                ("RUB" ++ "|" ++ "THB" ++ "|" ++ pyStrip "Таиланд"),
              msgs := [manualRatePrompt
                (if classifyLimit "Monthly usage limit has been reached" then msgLimit
                 else msgUnavail) "THB" "RUB"],
              ledger := emptyLedger, convCalls := 1 } :=
  (fetch_rate_failure_fixed_messages emptyLedger "RUB|THB|Таиланд" "RUB" "THB" "Таиланд"
    (by decide) (by decide) .api_error (some "104")
    "Monthly usage limit has been reached").1

/-! ## C2: manual rate entry and initial sum -/

theorem valid_amount_guard {text : String}
    (h : ¬ (is_number_message text = true ∧ 0 < parse_amount text)) :
    ¬ is_number_message text = true ∨ parse_amount text ≤ 0 := by
  by_cases hA : is_number_message text = true
  · right
    by_contra hB
    exact h ⟨hA, lt_of_not_le hB⟩
  · left
    exact hA

/-- C2: a positive numeric input `n` in state `newtrip_manual_rate` stores
rate `1/n` (the payload's rate field parses back to exactly `1/n`) and
advances to `newtrip_initial_sum`; a positive numeric sum `s` there creates
the trip with `balance_dest = s / rate`, which equals `s * n` whenever
`rate = 1/n`; non-numeric or non-positive input at either step re-prompts
in the same state without advancing.  The payload rate is required to be
non-zero: at rate 0 the source raises `ZeroDivisionError` instead of
creating a trip (the flow itself only ever stores rates `1/n` with
`n > 0`). -/
theorem manual_rate_and_initial_sum (L : Ledger) (uid : ℤ)
    (home dest cname rfield name sdM sdS textRate textSum : String) (r : ℚ)
    (hsM : pySplit sdM '|' 2 = [home, dest, cname]) (hcname : ¬ cname = "")
    (hsS : pySplit sdS '|' 3 = [home, dest, rfield, name])
    (hr : pyFloat rfield = some r) (hrne : ¬ r = 0)
    (hnumR : is_number_message textRate = true) (hposR : 0 < parse_amount textRate)
    (hnumS : is_number_message textSum = true) (hposS : 0 < parse_amount textSum)
    (hhd : ¬ home = dest) :
    (handle_manual_rate L sdM textRate
       = { eff := .set "newtrip_initial_sum"
             (home ++ "|" ++ dest ++ "|" ++ ratStr (1 / parse_amount textRate) ++ "|" ++
               pyStrip cname),
           msgs := ["Курс принят: 1 " ++ home ++ " = " ++
             ratStr (1 / parse_amount textRate) ++ " " ++ dest ++
             ". Введите начальную сумму в " ++ home ++ ":"],
           ledger := L, convCalls := 0 }
     ∧ pyFloat (ratStr (1 / parse_amount textRate)) = some (1 / parse_amount textRate))
    ∧ handle_newtrip_initial_sum L uid sdS textSum
        = .ok { eff := .clear,
                msgs := ["Путешествие «" ++ name ++ "» создано."],
                ledger :=
                  { trips := L.trips ++
                      [⟨L.nextId, uid, name, home, dest, r, parse_amount textSum / r⟩],
                    expenses := L.expenses, nextId := L.nextId + 1 },
                convCalls := 0 }
    ∧ (∀ n : ℚ, r = 1 / n → parse_amount textSum / r = parse_amount textSum * n)
    ∧ (∀ badText, ¬ (is_number_message badText = true ∧ 0 < parse_amount badText) →
        handle_manual_rate L sdM badText
          = { eff := .keep,
              msgs := ["Введите положительное число — курс (сколько валюты назначения за 1 единицу домашней)."],
              ledger := L, convCalls := 0 }
        ∧ handle_newtrip_initial_sum L uid sdS badText
          = .ok { eff := .keep,
                  msgs := ["Введите положительное число — сумму в валюте отправления (домашней)."],
                  ledger := L, convCalls := 0 }) := by
  have hcondR : ¬ (¬ is_number_message textRate = true ∨ parse_amount textRate ≤ 0) := by
    intro h
    exact h.elim (fun h1 => h1 hnumR) (fun h2 => absurd h2 (not_le.mpr hposR))
  have hcondS : ¬ (¬ is_number_message textSum = true ∨ parse_amount textSum ≤ 0) := by
    intro h
    exact h.elim (fun h1 => h1 hnumS) (fun h2 => absurd h2 (not_le.mpr hposS))
  refine ⟨⟨?_, ?_⟩, ?_, ?_, ?_⟩
  · simp only [handle_manual_rate]
    rw [if_neg hcondR]
    simp only [hsM, List.length_cons, List.length_nil, List.getD_cons_zero,
      List.getD_cons_succ]
    rw [if_neg (by norm_num), if_pos ⟨by norm_num, hcname⟩]
  · exact pyFloat_ratStr (one_div_pos.mpr hposR)
  · simp only [handle_newtrip_initial_sum]
    rw [if_neg (by rw [hsS]; norm_num)]
    simp only [hsS, List.length_cons, List.length_nil, List.getD_cons_zero,
      List.getD_cons_succ, hr]
    rw [if_neg hcondS, if_neg hrne]
    simp only [create_trip, if_neg hhd]
    rw [if_pos (by norm_num)]
  · intro n hrn
    rw [hrn, one_div, div_inv_eq_mul]
  · intro badText hbad
    have hcondB := valid_amount_guard hbad
    constructor
    · simp only [handle_manual_rate]
      rw [if_pos hcondB]
    · simp only [handle_newtrip_initial_sum]
      rw [if_neg (by rw [hsS]; norm_num)]
      simp only [hsS, List.length_cons, List.length_nil, List.getD_cons_zero,
        List.getD_cons_succ, hr]
      rw [if_pos hcondB]

theorem c2_rate_value : mkRat 5 64 = 1 / parse_amount "12.8" := by
  rw [show parse_amount "12.8" = mkRat 64 5 from by decide,
    Rat.mkRat_eq_div, Rat.mkRat_eq_div]
  norm_num

theorem c2_balance_value : parse_amount "50000" * parse_amount "12.8" = 640000 := by
  rw [show parse_amount "50000" = mkRat 50000 1 from by decide,
    show parse_amount "12.8" = mkRat 64 5 from by decide,
    Rat.mkRat_eq_div, Rat.mkRat_eq_div]
  norm_num

theorem manual_rate_and_initial_sum_witness :
    handle_manual_rate emptyLedger "RUB|THB|Таиланд" "12.8"
      = { eff := .set "newtrip_initial_sum"
            ("RUB" ++ "|" ++ "THB" ++ "|" ++ ratStr (1 / parse_amount "12.8") ++ "|" ++
              pyStrip "Таиланд"),
          msgs := ["Курс принят: 1 " ++ "RUB" ++ " = " ++
            ratStr (1 / parse_amount "12.8") ++ " " ++ "THB" ++
            ". Введите начальную сумму в " ++ "RUB" ++ ":"],
          ledger := emptyLedger, convCalls := 0 }
    ∧ handle_newtrip_initial_sum emptyLedger 7 "RUB|THB|5/64|Таиланд" "50000"
      = .ok { eff := .clear,
              msgs := ["Путешествие «" ++ "Таиланд" ++ "» создано."],
              ledger :=
                { trips := emptyLedger.trips ++
                    [⟨emptyLedger.nextId, 7, "Таиланд", "RUB", "THB", mkRat 5 64,
                      parse_amount "50000" / mkRat 5 64⟩],
                  expenses := emptyLedger.expenses, nextId := emptyLedger.nextId + 1 },
              convCalls := 0 }
    ∧ parse_amount "50000" / mkRat 5 64 = 640000 := by
  have h := manual_rate_and_initial_sum emptyLedger 7 "RUB" "THB" "Таиланд" "5/64"
    "Таиланд" "RUB|THB|Таиланд" "RUB|THB|5/64|Таиланд" "12.8" "50000" (mkRat 5 64)
    (by decide) (by decide) (by decide) (by decide) (by decide) (by decide)
    (by decide) (by decide) (by decide) (by decide)
  exact ⟨h.1.1, h.2.1, (h.2.2.1 (parse_amount "12.8") c2_rate_value).trans c2_balance_value⟩

/-! ## C9: the rate-change flow -/

/-- C9: in state `setrate_trip`, non-numeric or non-positive input
re-prompts in the same state; a positive numeric input is applied directly
through `update_trip_rate` with no confirmation step and the state is
cleared; the update changes only the trip's rate field — the found trip
keeps its `balance_dest`, the expense list is untouched, and all other
trips are unchanged. -/
theorem setrate_update (L : Ledger) (uid tid : ℤ) (t : Trip) (sd text : String) :
    (∀ badText, ¬ (is_number_message badText = true ∧ 0 < parse_amount badText) →
        handle_setrate_trip L uid sd badText
          = { eff := .keep, msgs := ["Введите положительное число — новый курс."],
              ledger := L, convCalls := 0 })
    ∧ (is_number_message text = true → 0 < parse_amount text →
        pyInt sd = some tid → findTrip L tid uid = some t →
        handle_setrate_trip L uid sd text
          = { eff := .clear, msgs := ["Курс обновлён."],
              ledger := update_trip_rate L tid uid (parse_amount text), convCalls := 0 }
        ∧ (update_trip_rate L tid uid (parse_amount text)).expenses = L.expenses
        ∧ findTrip (update_trip_rate L tid uid (parse_amount text)) tid uid
            = some { t with rate := parse_amount text }
        ∧ ∀ u ∈ L.trips, ¬ (u.id = tid ∧ u.owner = uid) →
            u ∈ (update_trip_rate L tid uid (parse_amount text)).trips) := by
  constructor
  · intro badText hbad
    simp only [handle_setrate_trip]
    rw [if_pos (valid_amount_guard hbad)]
  · intro hnum hpos hpi hft
    have hcond : ¬ (¬ is_number_message text = true ∨ parse_amount text ≤ 0) := by
      intro h
      exact h.elim (fun h1 => h1 hnum) (fun h2 => absurd h2 (not_le.mpr hpos))
    have hrpos : ¬ parse_amount text ≤ 0 := not_le.mpr hpos
    have htkey : t.id = tid ∧ t.owner = uid := (findTrip_mem_key hft).2
    refine ⟨?_, ?_, ?_, ?_⟩
    · simp only [handle_setrate_trip]
      rw [if_neg hcond]
      simp only [hpi, hft]
    · simp only [update_trip_rate]
      rw [if_neg hrpos]
    · simp only [update_trip_rate]
      rw [if_neg hrpos]
      unfold findTrip at hft ⊢
      rw [find?_map_key_preserving _ _ _ (by
        intro u
        by_cases hu' : u.id = tid ∧ u.owner = uid <;> simp [hu'])]
      rw [hft]
      simp only [Option.map_some']
      rw [if_pos htkey]
    · intro u hu hne
      simp only [update_trip_rate]
      rw [if_neg hrpos]
      exact List.mem_map.mpr ⟨u, hu, if_neg hne⟩

/-- concrete ledger used to witness C9. -/
def exLedger9 : Ledger :=
  { trips := [⟨3, 7, "Vietnam", "RUB", "VND", 10, 500⟩], expenses := [], nextId := 4 }

theorem setrate_update_witness :
    handle_setrate_trip exLedger9 7 "3" "12.5"
      = { eff := .clear, msgs := ["Курс обновлён."],
          ledger := update_trip_rate exLedger9 3 7 (parse_amount "12.5"), convCalls := 0 }
    ∧ findTrip (update_trip_rate exLedger9 3 7 (parse_amount "12.5")) 3 7
        = some { (⟨3, 7, "Vietnam", "RUB", "VND", 10, 500⟩ : Trip) with
                 rate := parse_amount "12.5" } :=
  have h := (setrate_update exLedger9 7 3 ⟨3, 7, "Vietnam", "RUB", "VND", 10, 500⟩
    "3" "12.5").2 (by decide) (by decide) (by decide) (by decide)
  ⟨h.1, h.2.2.1⟩

/-! ## C5: malformed-payload recovery -/

/-- counterexample to C5 as stated: in state `newtrip_manual_rate` with the
malformed single-field payload `"RUB"` (the state expects
`home|dest|name`), processing the next user message `"abc"` does NOT clear
the state — the numeric-input check fires first and re-prompts in the same
state. -/
theorem malformed_payload_counterexample :
    pySplit "RUB" '|' 2 = ["RUB"]
    ∧ (handle_manual_rate emptyLedger "RUB" "abc").eff = .keep
    ∧ ¬ (handle_manual_rate emptyLedger "RUB" "abc").eff = .clear := by
  decide

/-- C5 as amended: the clear-state-and-restart recovery runs when the
handler reaches the payload parse.  In `newtrip_initial_sum` the field-count
check comes first, so ANY next message on a short payload clears the state,
returns to idle with the explicit start-over message, and raises no
exception; in `newtrip_manual_rate` the numeric-input check comes first, so
the clear happens on the first message passing numeric validation, while a
non-numeric message merely re-prompts in the same state (and still raises
no exception). -/
theorem malformed_payload_recovery (L : Ledger) (uid : ℤ) (sd text : String) :
    ((pySplit sd '|' 3).length < 4 →
        handle_newtrip_initial_sum L uid sd text
          = .ok { eff := .clear,
                  msgs := ["Что-то пошло не так. Начните создание поездки заново."],
                  ledger := L, convCalls := 0 })
    ∧ (is_number_message text = true → 0 < parse_amount text →
        (pySplit sd '|' 2).length < 2 →
        handle_manual_rate L sd text
          = { eff := .clear, msgs := ["Ошибка. Начните создание заново."],
              ledger := L, convCalls := 0 })
    ∧ (¬ (is_number_message text = true ∧ 0 < parse_amount text) →
        (handle_manual_rate L sd text).eff = .keep) := by
  refine ⟨?_, ?_, ?_⟩
  · intro hshort
    simp only [handle_newtrip_initial_sum]
    rw [if_pos hshort]
  · intro hnum hpos hshort
    have hcond : ¬ (¬ is_number_message text = true ∨ parse_amount text ≤ 0) := by
      intro h
      exact h.elim (fun h1 => h1 hnum) (fun h2 => absurd h2 (not_le.mpr hpos))
    simp only [handle_manual_rate]
    rw [if_neg hcond, if_pos hshort]
  · intro hbad
    simp only [handle_manual_rate]
    rw [if_pos (valid_amount_guard hbad)]

theorem malformed_payload_recovery_witness :
    handle_newtrip_initial_sum emptyLedger 7 "RUB" "50"
      = .ok { eff := .clear,
              msgs := ["Что-то пошло не так. Начните создание поездки заново."],
              ledger := emptyLedger, convCalls := 0 }
    ∧ handle_manual_rate emptyLedger "RUB" "50"
      = { eff := .clear, msgs := ["Ошибка. Начните создание заново."],
          ledger := emptyLedger, convCalls := 0 } :=
  ⟨(malformed_payload_recovery emptyLedger 7 "RUB" "50").1 (by decide),
   (malformed_payload_recovery emptyLedger 7 "RUB" "50").2.1 (by decide) (by decide)
     (by decide)⟩

/-! ## C10: a malformed rate field raises inside initial_sum -/

/-- C10: in state `newtrip_initial_sum` the third payload field goes
through `float()` immediately after the field-count check, before the
message is validated, so a four-field payload with a non-numeric rate field
(here `"RUB|THB|x|THB"`) makes the handler raise for EVERY incoming
message — the no-throw recovery covers only wrong field counts. -/
theorem initial_sum_malformed_rate_raises (L : Ledger) (uid : ℤ) (text : String) :
    (pySplit "RUB|THB|x|THB" '|' 3).length = 4
    ∧ pyFloat "x" = none
    ∧ handle_newtrip_initial_sum L uid "RUB|THB|x|THB" text
        = .error "ValueError: could not convert string to float" :=
  ⟨by decide, by decide, rfl⟩
